import Mathlib

set_option maxHeartbeats 1000000

namespace Gastown

/-- Go strings are modelled as lists of characters, so that reasoning about
subject prefixes stays elementary. -/
abbrev GoStr := List Char

/-- Converts a Lean string literal to the character-list model. -/
def str (s : String) : GoStr := s.data

/-! ## Mail drainer (src/internal/cmd/mail_drain.go) -/

namespace MailDrain

/-- A mailbox message, as used by runMailDrain: keyed by ID, with subject,
timestamp, read flag and wisp flag. Timestamps are integers (UTC instants). -/
structure Message where
  id : String
  subject : GoStr
  timestamp : Int
  read : Bool
  wisp : Bool
deriving DecidableEq, Repr

/-- The closed set of drainable protocol subject patterns
(variable drainableSubjects in mail_drain.go). -/
def drainableSubjects : List GoStr :=
  [str "POLECAT_DONE", str "POLECAT_STARTED", str "LIFECYCLE:",
   str "MERGED", str "MERGE_READY", str "MERGE_FAILED", str "SWARM_START"]

/-- isDrainableMessage: the subject matches one of the drainable patterns
(strings.HasPrefix over drainableSubjects). -/
def isDrainableMessage (subject : GoStr) : Bool :=
  drainableSubjects.any (fun pat => pat.isPrefixOf subject)

/-- The first selection loop of runMailDrain: protocol messages, gated by
the --all flag or by age (skip when not --all and Timestamp.After(cutoff)).
Reason is protocol, or wisp+protocol when the wisp flag is set. -/
def protocolCandidates (messages : List Message) (drainAll : Bool) (cutoff : Int) :
    List (Message × String) :=
  (messages.filter (fun m =>
      isDrainableMessage m.subject && (drainAll || !(decide (cutoff < m.timestamp))))).map
    (fun m => (m, if m.wisp then "wisp+protocol" else "protocol"))

/-- The second selection loop of runMailDrain: read wisps (non-protocol),
included when --all is set or Timestamp.Before(cutoff). -/
def readWispCandidates (messages : List Message) (drainAll : Bool) (cutoff : Int) :
    List (Message × String) :=
  (messages.filter (fun m =>
      !(isDrainableMessage m.subject) && m.wisp && m.read
        && (drainAll || decide (m.timestamp < cutoff)))).map
    (fun m => (m, "read-wisp"))

/-- All drain candidates of a run, with their reasons, in selection order. -/
def drainCandidates (messages : List Message) (drainAll : Bool) (cutoff : Int) :
    List (Message × String) :=
  protocolCandidates messages drainAll cutoff ++ readWispCandidates messages drainAll cutoff

/-- The mailbox after runMailDrain: in dry-run mode nothing is touched,
otherwise mailbox.Delete(id) removes each candidate by ID. -/
def runMailDrain (messages : List Message) (drainAll dryRun : Bool) (cutoff : Int) :
    List Message :=
  let cands := drainCandidates messages drainAll cutoff
  if dryRun then messages
  else messages.filter (fun m => !(cands.any (fun c => c.1.id == m.id)))

end MailDrain

/-! ## Message deduplicator (src/internal/witness/dedup.go) -/

namespace Witness

/-- MessageDeduplicator state: the processed-ID set (a Go map of string keys,
modelled as the list of keys present) plus the soft capacity hint. -/
structure MessageDeduplicator where
  processed : List String
  maxSize : Int
deriving DecidableEq, Repr

/-- NewMessageDeduplicator: non-positive capacity hints fall back to 10000;
the processed set starts empty. -/
def newMessageDeduplicator (maxSize : Int) : MessageDeduplicator :=
  { processed := [], maxSize := if maxSize ≤ 0 then 10000 else maxSize }

/-- AlreadyProcessed: check-and-set. Empty IDs return false and record
nothing; a seen ID returns true; an unseen ID is recorded and returns false. -/
def alreadyProcessed (d : MessageDeduplicator) (messageID : String) :
    Bool × MessageDeduplicator :=
  if messageID = "" then (false, d)
  else if d.processed.contains messageID then (true, d)
  else (false, { d with processed := messageID :: d.processed })

/-- Size: the number of tracked message IDs. -/
def size (d : MessageDeduplicator) : Nat := d.processed.length

end Witness

/-! ## Log rotation (src/internal/daemon/log_rotation.go) -/

namespace LogRot

/-- logRotationMaxSize: 100 MiB threshold for auto-rotation. -/
def logRotationMaxSize : Nat := 100 * 1024 * 1024

/-- logRotationMaxBackups: at most 3 rotated backups are kept. -/
def logRotationMaxBackups : Nat := 3

/-- A managed log file: its current size plus its compressed backups,
each backup being an index K (the file <path>.K.gz) with a modification time. -/
structure LogFile where
  size : Nat
  backups : List (Nat × Nat)
deriving DecidableEq, Repr

/-- The rotation result: rotated and skipped paths (the error list of the
source is always empty in this pure model, where file operations succeed). -/
structure RotateLogsResult where
  rotated : List String
  skipped : List String
  errors : List String
deriving DecidableEq, Repr

/-- The backup-shifting loop of copyTruncateRotate: the oldest backup
(index maxBackups) is removed, and each index K in maxBackups-1 .. 1 is
renamed to K+1. Other indices are untouched. -/
def shiftBackups (bs : List (Nat × Nat)) : List (Nat × Nat) :=
  bs.filterMap (fun kv =>
    if kv.1 = logRotationMaxBackups then none
    else if 1 ≤ kv.1 && kv.1 < logRotationMaxBackups then some (kv.1 + 1, kv.2)
    else some kv)

/-- cleanOldRotations: if more than maxBackups backups match <path>.*.gz,
delete the oldest by modification time until maxBackups remain. -/
def cleanOldRotations (bs : List (Nat × Nat)) : List (Nat × Nat) :=
  if bs.length ≤ logRotationMaxBackups then bs
  else (bs.insertionSort (fun a b => a.2 ≤ b.2)).drop (bs.length - logRotationMaxBackups)

/-- copyTruncateRotate: shift backups, compress the current content to
<path>.1.gz (stamped with the current time), truncate in place, clean up. -/
def copyTruncateRotate (f : LogFile) (now : Nat) : LogFile :=
  { size := 0, backups := cleanOldRotations ((1, now) :: shiftBackups f.backups) }

/-- RotateLogs: every managed log file that exists is rotated when its size
is at least logRotationMaxSize and skipped otherwise. Returns the result
and the file system afterwards. -/
def rotateLogs (files : List (String × LogFile)) (now : Nat) :
    RotateLogsResult × List (String × LogFile) :=
  ({ rotated := (files.filter (fun e => decide (logRotationMaxSize ≤ e.2.size))).map (fun e => e.1),
     skipped := (files.filter (fun e => decide (e.2.size < logRotationMaxSize))).map (fun e => e.1),
     errors := [] },
   files.map (fun e =>
     if logRotationMaxSize ≤ e.2.size then (e.1, copyTruncateRotate e.2 now) else e))

/-- ForceRotateLogs: every managed log file that exists is rotated when its
size is positive and skipped when it is zero. -/
def forceRotateLogs (files : List (String × LogFile)) (now : Nat) :
    RotateLogsResult × List (String × LogFile) :=
  ({ rotated := (files.filter (fun e => decide (0 < e.2.size))).map (fun e => e.1),
     skipped := (files.filter (fun e => decide (e.2.size = 0))).map (fun e => e.1),
     errors := [] },
   files.map (fun e =>
     if 0 < e.2.size then (e.1, copyTruncateRotate e.2 now) else e))

/-- A single forced rotation of one file, as ForceRotateLogs treats it:
rotate when the size is positive, otherwise leave it (skipped). -/
def forceRotateFile (f : LogFile) (now : Nat) : LogFile :=
  if 0 < f.size then copyTruncateRotate f now else f

/-- A child process refilling the log file with fresh content between runs. -/
def refill (f : LogFile) (n : Nat) : LogFile := { f with size := n }

end LogRot

/-! ## Retention engine, "wisp reaper" (src/unnamed/part_003, the revision
with the auto-close step; the older revision src/internal/daemon/wisp_reaper.go
differs only in its mail-delete-age constant and the absence of auto-close). -/

namespace Reaper

/-- One hour, in seconds. Durations and instants are modelled in seconds. -/
def hour : Int := 3600

/-- defaultWispMaxAge: wisps older than 24 h are reaped. -/
def defaultWispMaxAge : Int := 24 * hour

/-- defaultWispDeleteAge: closed wisps older than 7 days are deleted. -/
def defaultWispDeleteAge : Int := 7 * 24 * hour

/-- defaultMailDeleteAge in src/unnamed/part_003: closed gt:message mail
older than 7 days is deleted. -/
def defaultMailDeleteAge : Int := 7 * 24 * hour

/-- defaultStaleIssueAge: issues stale longer than 30 days are auto-closed. -/
def defaultStaleIssueAge : Int := 30 * 24 * hour

/-- deleteBatchSize: DELETE operations run in batches of 100 rows. -/
def deleteBatchSize : Nat := 100

/-- wispAlertThreshold: the open-wisp count that triggers a warning. -/
def wispAlertThreshold : Nat := 500

/-- A row of the wisps table. closed_at is NULL (none) until the wisp closes. -/
structure Wisp where
  id : String
  status : String
  created_at : Int
  closed_at : Option Int
  wisp_type : String
deriving DecidableEq, Repr

/-- A row of the wisp_dependencies table; a parent link has type
parent-child, issue_id the child and depends_on_id the parent. -/
structure WispDep where
  issue_id : String
  depends_on_id : String
  type : String
deriving DecidableEq, Repr

/-- A row of the issues table. -/
structure Issue where
  id : String
  status : String
  updated_at : Int
  closed_at : Option Int
  priority : Int
  issue_type : String
deriving DecidableEq, Repr

/-- A row of the labels table. -/
structure LabelRow where
  issue_id : String
  label : String
deriving DecidableEq, Repr

/-- A row of the dependencies table (issue dependencies). -/
structure DepRow where
  issue_id : String
  depends_on_id : String
deriving DecidableEq, Repr

/-- A generic auxiliary-table row (wisp_labels, wisp_comments, wisp_events,
comments, events), keyed by issue_id with uninterpreted content. -/
structure AuxRow where
  issue_id : String
  payload : Nat
deriving DecidableEq, Repr

/-- The state of one database: the tables the retention engine touches. -/
structure DBState where
  wisps : List Wisp
  wisp_dependencies : List WispDep
  wisp_labels : List AuxRow
  wisp_comments : List AuxRow
  wisp_events : List AuxRow
  issues : List Issue
  labels : List LabelRow
  comments : List AuxRow
  events : List AuxRow
  dependencies : List DepRow
deriving DecidableEq, Repr

/-- The wisp statuses counted as open by the reaper:
status IN (open, hooked, in_progress). -/
def openWispStatus (s : String) : Bool :=
  s == "open" || s == "hooked" || s == "in_progress"

/-- SQL closed_at < cutoff: false on NULL. -/
def closedBefore (t : Option Int) (cutoff : Int) : Bool :=
  match t with
  | some v => decide (v < cutoff)
  | none => false

/-- parentCheckWhere: the wisp has no parent-child row in wisp_dependencies,
or some parent-child row joins to a parent wisp with status closed. -/
def parentCheck (db : DBState) (w : Wisp) : Bool :=
  !(db.wisp_dependencies.any (fun wd =>
      wd.issue_id == w.id && wd.type == "parent-child"))
  || db.wisp_dependencies.any (fun wd =>
      wd.issue_id == w.id && wd.type == "parent-child"
        && db.wisps.any (fun parent =>
            parent.id == wd.depends_on_id && parent.status == "closed"))

/-- The WHERE clause of the reap UPDATE: open-family status, created
before the cutoff, and the parent check. -/
def reapEligible (db : DBState) (cutoff : Int) (w : Wisp) : Bool :=
  openWispStatus w.status && decide (w.created_at < cutoff) && parentCheck db w

/-- The effect of the reap UPDATE on one row: eligible rows get
status closed and closed_at = NOW(). -/
def reapUpdateRow (db : DBState) (cutoff now : Int) (w : Wisp) : Wisp :=
  if reapEligible db cutoff w then { w with status := "closed", closed_at := some now }
  else w

/-- reapWispsInDB: in dry-run mode count the eligible rows, otherwise run
the UPDATE; then count the remaining open wisps.
Returns (reaped, open count, database afterwards). -/
def reapWispsInDB (db : DBState) (cutoff now : Int) (dryRun : Bool) :
    Nat × Nat × DBState :=
  if dryRun then
    ((db.wisps.filter (reapEligible db cutoff)).length,
     (db.wisps.filter (fun w => openWispStatus w.status)).length,
     db)
  else
    let wisps2 := db.wisps.map (reapUpdateRow db cutoff now)
    ((db.wisps.filter (reapEligible db cutoff)).length,
     (wisps2.filter (fun w => openWispStatus w.status)).length,
     { db with wisps := wisps2 })

/-- The purge selection predicate: status closed, closed_at before the
delete cutoff, and the parent check. -/
def purgeEligible (db : DBState) (deleteCutoff : Int) (w : Wisp) : Bool :=
  w.status == "closed" && closedBefore w.closed_at deleteCutoff && parentCheck db w

/-- One batch selection of the wisp purge loop: up to deleteBatchSize
eligible IDs (SELECT ... LIMIT). -/
def wispBatchIds (db : DBState) (deleteCutoff : Int) : List String :=
  (((db.wisps.filter (purgeEligible db deleteCutoff)).take deleteBatchSize).map
    (fun w => w.id))

/-- The DELETEs of one wisp-purge batch: auxiliary tables first
(wisp_labels, wisp_comments, wisp_events, wisp_dependencies), then the
wisps rows with id IN the batch. -/
def deleteWispRows (db : DBState) (ids : List String) : DBState :=
  { db with
    wisp_labels := db.wisp_labels.filter (fun r => !(ids.contains r.issue_id)),
    wisp_comments := db.wisp_comments.filter (fun r => !(ids.contains r.issue_id)),
    wisp_events := db.wisp_events.filter (fun r => !(ids.contains r.issue_id)),
    wisp_dependencies := db.wisp_dependencies.filter (fun r => !(ids.contains r.issue_id)),
    wisps := db.wisps.filter (fun w => !(ids.contains w.id)) }

/-- The wisp purge batch loop: select a batch, delete it, repeat until the
selection is empty. Fuel bounds the iteration count; purgeClosedWispsInDB
supplies enough fuel to reach the empty-selection fixpoint. -/
def batchPurgeWisps : Nat → DBState → Int → Nat × DBState
  | 0, db, _ => (0, db)
  | fuel + 1, db, deleteCutoff =>
    let ids := wispBatchIds db deleteCutoff
    if ids.isEmpty then (0, db)
    else
      let affected := (db.wisps.filter (fun w => ids.contains w.id)).length
      let rest := batchPurgeWisps fuel (deleteWispRows db ids) deleteCutoff
      (affected + rest.1, rest.2)

/-- purgeClosedWispsInDB: digest-count the eligible closed wisps; stop at
zero; in dry-run mode return the count without deleting; otherwise run the
batch-delete loop. Returns (deleted count, database afterwards). -/
def purgeClosedWispsInDB (db : DBState) (deleteCutoff : Int) (dryRun : Bool) :
    Nat × DBState :=
  let digestTotal := (db.wisps.filter (purgeEligible db deleteCutoff)).length
  if digestTotal = 0 then (0, db)
  else if dryRun then (digestTotal, db)
  else batchPurgeWisps (db.wisps.length + 1) db deleteCutoff

/-- The mail purge selection predicate: a closed issue, closed before the
mail cutoff, carrying the gt:message label. -/
def mailEligible (db : DBState) (mailCutoff : Int) (i : Issue) : Bool :=
  i.status == "closed" && closedBefore i.closed_at mailCutoff
    && db.labels.any (fun l => l.issue_id == i.id && l.label == "gt:message")

/-- One batch selection of the mail purge loop. -/
def mailBatchIds (db : DBState) (mailCutoff : Int) : List String :=
  (((db.issues.filter (mailEligible db mailCutoff)).take deleteBatchSize).map
    (fun i => i.id))

/-- The DELETEs of one mail-purge batch: labels, comments, events,
dependencies first, then the issues rows with id IN the batch. -/
def deleteIssueRows (db : DBState) (ids : List String) : DBState :=
  { db with
    labels := db.labels.filter (fun r => !(ids.contains r.issue_id)),
    comments := db.comments.filter (fun r => !(ids.contains r.issue_id)),
    events := db.events.filter (fun r => !(ids.contains r.issue_id)),
    dependencies := db.dependencies.filter (fun r => !(ids.contains r.issue_id)),
    issues := db.issues.filter (fun i => !(ids.contains i.id)) }

/-- The mail purge batch loop, following the wisp purge pattern. -/
def batchPurgeMail : Nat → DBState → Int → Nat × DBState
  | 0, db, _ => (0, db)
  | fuel + 1, db, mailCutoff =>
    let ids := mailBatchIds db mailCutoff
    if ids.isEmpty then (0, db)
    else
      let affected := (db.issues.filter (fun i => ids.contains i.id)).length
      let rest := batchPurgeMail fuel (deleteIssueRows db ids) mailCutoff
      (affected + rest.1, rest.2)

/-- purgeOldMailInDB: count the eligible mail rows, stop at zero, otherwise
batch-delete them. This function has no dry-run parameter in the source. -/
def purgeOldMailInDB (db : DBState) (mailCutoff : Int) : Nat × DBState :=
  let count := (db.issues.filter (mailEligible db mailCutoff)).length
  if count = 0 then (0, db)
  else batchPurgeMail (db.issues.length + 1) db mailCutoff

/-- Issue statuses counted as active: status IN (open, in_progress). -/
def openIssueStatus (s : String) : Bool :=
  s == "open" || s == "in_progress"

/-- The first dependency exclusion of auto-close: the issue depends on some
open or in-progress issue. -/
def dependsOnOpen (db : DBState) (i : Issue) : Bool :=
  db.dependencies.any (fun d =>
    d.issue_id == i.id
      && db.issues.any (fun dep =>
          dep.id == d.depends_on_id && openIssueStatus dep.status))

/-- The second dependency exclusion of auto-close: some open or in-progress
issue depends on the issue. -/
def blockedByOpen (db : DBState) (i : Issue) : Bool :=
  db.dependencies.any (fun d =>
    d.depends_on_id == i.id
      && db.issues.any (fun blocker =>
          blocker.id == d.issue_id && openIssueStatus blocker.status))

/-- The WHERE clause of the auto-close UPDATE: open-family status, stale,
priority above 1, not an epic, and neither dependency exclusion. -/
def autoCloseEligible (db : DBState) (staleCutoff : Int) (i : Issue) : Bool :=
  openIssueStatus i.status && decide (i.updated_at < staleCutoff)
    && decide (1 < i.priority) && i.issue_type != "epic"
    && !(dependsOnOpen db i) && !(blockedByOpen db i)

/-- The effect of the auto-close UPDATE on one row. -/
def autoCloseUpdateRow (db : DBState) (staleCutoff now : Int) (i : Issue) : Issue :=
  if autoCloseEligible db staleCutoff i then
    { i with status := "closed", closed_at := some now }
  else i

/-- autoCloseStaleIssuesInDB: count the stale issues, stop at zero, in
dry-run mode return the count, otherwise run the UPDATE. -/
def autoCloseStaleIssuesInDB (db : DBState) (staleCutoff now : Int) (dryRun : Bool) :
    Nat × DBState :=
  let count := (db.issues.filter (autoCloseEligible db staleCutoff)).length
  if count = 0 then (0, db)
  else if dryRun then (count, db)
  else (count, { db with issues := db.issues.map (autoCloseUpdateRow db staleCutoff now) })

/-- WispReaperConfig, with the duration strings already parsed: a field is
some d exactly when time.ParseDuration succeeded on the configured string. -/
structure WispReaperConfig where
  enabled : Bool
  dryRun : Bool
  maxAge : Option Int
  deleteAge : Option Int
  databases : List String
deriving DecidableEq, Repr

/-- wispReaperMaxAge: the configured max age when parsed and positive,
otherwise the 24 h default. -/
def wispReaperMaxAge (c : WispReaperConfig) : Int :=
  match c.maxAge with
  | some d => if 0 < d then d else defaultWispMaxAge
  | none => defaultWispMaxAge

/-- wispDeleteAge: the configured delete age when parsed and positive,
otherwise the 7 day default. -/
def wispDeleteAge (c : WispReaperConfig) : Int :=
  match c.deleteAge with
  | some d => if 0 < d then d else defaultWispDeleteAge
  | none => defaultWispDeleteAge

/-- The mail purge cutoff of a cycle: now minus defaultMailDeleteAge. -/
def mailPurgeCutoff (now : Int) : Int := now - defaultMailDeleteAge

/-- Modelled from the spec: the conservative identifier gatekeeper
validDBName (letters, digits, underscores) is referenced by the retention
engine but defined in a source file that was not provided. -/
def validDBName (s : String) : Bool :=
  !s.isEmpty && s.data.all (fun c => c.isAlphanum || c == '_')

/-- discoverDoltDatabases: the hard-coded production database list. -/
def discoverDoltDatabases : List String := ["hq", "beads", "gastown"]

/-- The database list of a cycle: the configured names, or the hard-coded
fallback when none are configured. -/
def cycleDatabases (c : WispReaperConfig) : List String :=
  if c.databases.isEmpty then discoverDoltDatabases else c.databases

/-- The server-level state: each named database with its contents. -/
abbrev GlobalState := List (String × DBState)

/-- Applies a per-database transformation to the database of a given name. -/
def updateDB (g : GlobalState) (name : String) (f : DBState → DBState) : GlobalState :=
  g.map (fun e => if e.1 == name then (e.1, f e.2) else e)

/-- One step of the cycle: every configured database whose name passes
validDBName is transformed; invalid names are skipped. -/
def runStep (g : GlobalState) (dbs : List String) (f : DBState → DBState) : GlobalState :=
  dbs.foldl (fun acc name => if validDBName name then updateDB acc name f else acc) g

/-- reapWisps, the full retention cycle of src/unnamed/part_003: scan for
databases (abort when none), then reap, purge, mail-purge and auto-close
each database in order. Enabling is modelled from the spec: a patrol runs
only when its config block exists with enabled true. -/
def runReaperCycle (c : WispReaperConfig) (g : GlobalState) (now : Int) : GlobalState :=
  if !c.enabled then g
  else
    let cutoff := now - wispReaperMaxAge c
    let deleteCutoff := now - wispDeleteAge c
    let staleCutoff := now - defaultStaleIssueAge
    let dbs := cycleDatabases c
    if dbs.isEmpty then g
    else
      let g1 := runStep g dbs (fun db => (reapWispsInDB db cutoff now c.dryRun).2.2)
      let g2 := runStep g1 dbs (fun db => (purgeClosedWispsInDB db deleteCutoff c.dryRun).2)
      let g3 := runStep g2 dbs (fun db => (purgeOldMailInDB db (mailPurgeCutoff now)).2)
      runStep g3 dbs (fun db => (autoCloseStaleIssuesInDB db staleCutoff now c.dryRun).2)

end Reaper

/-! ## The older reaper revision (src/internal/daemon/wisp_reaper.go):
identical structure, but its mail-delete-age constant is 30 days. -/

namespace ReaperLegacy

/-- defaultMailDeleteAge in src/internal/daemon/wisp_reaper.go:
closed gt:message mail older than 30 days is deleted. -/
def defaultMailDeleteAge : Int := 30 * 24 * Reaper.hour

/-- The mail purge cutoff of a cycle of the older revision:
now minus its defaultMailDeleteAge. -/
def mailCutoff (now : Int) : Int := now - defaultMailDeleteAge

end ReaperLegacy

/-! ## Concrete states used to exercise the theorems -/

namespace Reaper

/-- A database with every table empty. -/
def emptyDB : DBState :=
  { wisps := [], wisp_dependencies := [], wisp_labels := [], wisp_comments := [],
    wisp_events := [], issues := [], labels := [], comments := [], events := [],
    dependencies := [] }

/-- A stale open orphan wisp. -/
def wOrphanC1 : Wisp :=
  { id := "w1", status := "open", created_at := -100000, closed_at := none,
    wisp_type := "patrol" }

/-- An open parent wisp. -/
def wParentC1 : Wisp :=
  { id := "p1", status := "open", created_at := 0, closed_at := none,
    wisp_type := "patrol" }

/-- A stale open wisp whose parent wParentC1 is still open. -/
def wChildC1 : Wisp :=
  { id := "c1", status := "open", created_at := -100000, closed_at := none,
    wisp_type := "patrol" }

/-- The parent-child row linking wChildC1 to wParentC1. -/
def depC1 : WispDep :=
  { issue_id := "c1", depends_on_id := "p1", type := "parent-child" }

/-- A database with one reapable orphan and one parent-gated wisp. -/
def dbC1 : DBState :=
  { emptyDB with wisps := [wOrphanC1, wParentC1, wChildC1], wisp_dependencies := [depC1] }

/-- A closed mail issue, closed well over 7 days before instant 0. -/
def mailC2 : Issue :=
  { id := "m1", status := "closed", updated_at := -1000000,
    closed_at := some (-1000000), priority := 2, issue_type := "task" }

/-- The gt:message label row of mailC2. -/
def labelC2 : LabelRow := { issue_id := "m1", label := "gt:message" }

/-- A database holding only the old closed mail row and its label. -/
def dbC2 : DBState := { emptyDB with issues := [mailC2], labels := [labelC2] }

/-- A dry-run reaper configuration over the single database hq. -/
def cfgC2 : WispReaperConfig :=
  { enabled := true, dryRun := true, maxAge := none, deleteAge := none,
    databases := ["hq"] }

/-- The server state before the dry-run cycle. -/
def gC2 : GlobalState := [("hq", dbC2)]

/-- An old closed mail issue used to exercise the mail cutoff. -/
def mailC5 : Issue :=
  { id := "m5", status := "closed", updated_at := -700000,
    closed_at := some (-700000), priority := 2, issue_type := "task" }

/-- The gt:message label row of mailC5. -/
def labelC5 : LabelRow := { issue_id := "m5", label := "gt:message" }

/-- A database holding mailC5 with its gt:message label. -/
def dbC5 : DBState :=
  { emptyDB with issues := [mailC5], labels := [labelC5] }

/-- A stale priority-2 open issue with no dependencies. -/
def issueC6 : Issue :=
  { id := "i1", status := "open", updated_at := -10000000, closed_at := none,
    priority := 2, issue_type := "task" }

/-- A database holding only issueC6. -/
def dbC6 : DBState := { emptyDB with issues := [issueC6] }

/-- A retention configuration with no databases listed. -/
def cfgC10 : WispReaperConfig :=
  { enabled := true, dryRun := false, maxAge := none, deleteAge := none,
    databases := [] }

/-- A database that should not be touched by a fallback run. -/
def otherDBC10 : DBState := { emptyDB with wisps := [wOrphanC1] }

/-- A server state with the production databases plus a foreign one. -/
def gC10 : GlobalState :=
  [("hq", emptyDB), ("beads", emptyDB), ("gastown", emptyDB), ("scratch", otherDBC10)]

end Reaper

namespace MailDrain

/-- A fresh read wisp with a non-protocol subject: drained by the code under
the drain-all flag, but not a candidate under the claimed selection rule. -/
def cm3 : Message :=
  { id := "m1", subject := str "status note", timestamp := 100, read := true,
    wisp := true }

/-- An aged protocol message, a straightforward drain candidate. -/
def wm3 : Message :=
  { id := "m2", subject := str "POLECAT_DONE furiosa", timestamp := -100,
    read := false, wisp := false }

/-- An aged, read help request flagged as a wisp: the code drains it. -/
def hm4 : Message :=
  { id := "h1", subject := str "HELP: stuck", timestamp := 0, read := true,
    wisp := true }

/-- An aged help request that is not a read wisp: always preserved. -/
def hm4b : Message :=
  { id := "h2", subject := str "HELP: parked", timestamp := 0, read := false,
    wisp := false }

end MailDrain

namespace LogRot

/-- Two managed log files: one at the rotation threshold, one well below. -/
def filesC7 : List (String × LogFile) :=
  [("daemon/dolt.log", { size := logRotationMaxSize, backups := [] }),
   ("daemon/dolt-server.log", { size := 5, backups := [] })]

/-- A log file with content and one existing backup. -/
def fileC8 : LogFile := { size := 10, backups := [(2, 5)] }

/-- Four successive forced rotations of a five-byte log file, the child
process refilling it between runs. -/
def fourRotState : LogFile :=
  forceRotateFile
    (refill (forceRotateFile
      (refill (forceRotateFile
        (refill (forceRotateFile { size := 5, backups := [] } 1) 5) 2) 5) 3) 5) 4

end LogRot

/-! ## Helper lemmas -/

theorem nodup_key_inj {α β : Type} (f : α → β) {l : List α}
    (h : (l.map f).Nodup) {a b : α} (ha : a ∈ l) (hb : b ∈ l) (hf : f a = f b) :
    a = b :=
  List.inj_on_of_nodup_map h ha hb hf

theorem mem_map_filter_key {α β : Type} (f : α → β) (p : α → Bool) {l : List α}
    (h : (l.map f).Nodup) {a : α} (ha : a ∈ l) :
    f a ∈ (l.filter p).map f ↔ p a = true := by
  constructor
  · intro hmem
    obtain ⟨b, hbf, hfb⟩ := List.mem_map.mp hmem
    obtain ⟨hbl, hpb⟩ := List.mem_filter.mp hbf
    rwa [nodup_key_inj f h hbl ha hfb] at hpb
  · intro hp
    exact List.mem_map.mpr ⟨a, List.mem_filter.mpr ⟨ha, hp⟩, rfl⟩

theorem length_filterMap_lt_of_none {α β : Type} (f : α → Option β) {l : List α}
    {a : α} (ha : a ∈ l) (hf : f a = none) :
    (l.filterMap f).length < l.length := by
  induction l with
  | nil => cases ha
  | cons x xs ih =>
    rcases List.mem_cons.mp ha with rfl | hmem
    · rw [List.filterMap_cons, hf, List.length_cons]
      exact Nat.lt_succ_of_le (List.length_filterMap_le f xs)
    · rw [List.filterMap_cons, List.length_cons]
      cases hfx : f x with
      | none => exact Nat.lt_succ_of_lt (ih hmem)
      | some b => simpa using Nat.succ_lt_succ (ih hmem)

/-! ## Claim theorems -/

/-- Claim C9: AlreadyProcessed is an atomic check-and-set: the empty ID
returns false and changes nothing; an unseen non-empty ID returns false and
is recorded; once an ID is in the set, every later call with it returns
true and leaves the set, hence Size, unchanged. -/
theorem claim_C9_dedup_check_and_set (d : Witness.MessageDeduplicator) (id0 : String) :
    Witness.alreadyProcessed d "" = (false, d)
    ∧ (id0 ≠ "" → id0 ∉ d.processed →
        (Witness.alreadyProcessed d id0).1 = false
        ∧ (Witness.alreadyProcessed d id0).2.processed = id0 :: d.processed)
    ∧ (id0 ≠ "" → id0 ∈ (Witness.alreadyProcessed d id0).2.processed)
    ∧ (id0 ≠ "" → id0 ∈ d.processed →
        Witness.alreadyProcessed d id0 = (true, d)
        ∧ Witness.size (Witness.alreadyProcessed d id0).2 = Witness.size d) := by
  refine ⟨?_, ?_, ?_, ?_⟩
  · simp [Witness.alreadyProcessed]
  · intro hne hnm
    rw [Witness.alreadyProcessed, if_neg hne, if_neg (by simpa using hnm)]
    exact ⟨rfl, rfl⟩
  · intro hne
    rw [Witness.alreadyProcessed, if_neg hne]
    by_cases hmem : d.processed.contains id0
    · rw [if_pos hmem]
      simpa using hmem
    · rw [if_neg hmem]
      exact List.mem_cons_self _ _
  · intro hne hmem
    rw [Witness.alreadyProcessed, if_neg hne, if_pos (by simpa using hmem)]
    exact ⟨rfl, rfl⟩

/-- Claim C9 witness: a fresh deduplicator processes m1 once; the second
call reports it as already processed and leaves the state unchanged. -/
theorem claim_C9_witness :
    Witness.alreadyProcessed (Witness.newMessageDeduplicator 0) "" =
      (false, Witness.newMessageDeduplicator 0)
    ∧ ((Witness.alreadyProcessed (Witness.newMessageDeduplicator 0) "m1").1 = false
        ∧ (Witness.alreadyProcessed (Witness.newMessageDeduplicator 0) "m1").2.processed =
          "m1" :: (Witness.newMessageDeduplicator 0).processed) :=
  ⟨(claim_C9_dedup_check_and_set (Witness.newMessageDeduplicator 0) "m1").1,
   (claim_C9_dedup_check_and_set (Witness.newMessageDeduplicator 0) "m1").2.1
     (by decide) (by decide)⟩

/-- Claim C7: for every managed log file that exists, Rotate rotates it iff
its size is at least the 100 MiB threshold and otherwise skips it, while
ForceRotate rotates it iff its size is positive and skips a size-0 file. -/
theorem claim_C7_rotation_thresholds (files : List (String × LogRot.LogFile))
    (now : Nat) (hnd : (files.map Prod.fst).Nodup) :
    ∀ e ∈ files,
      (e.1 ∈ (LogRot.rotateLogs files now).1.rotated ↔
        LogRot.logRotationMaxSize ≤ e.2.size)
      ∧ (e.1 ∈ (LogRot.rotateLogs files now).1.skipped ↔
        e.2.size < LogRot.logRotationMaxSize)
      ∧ (e.1 ∈ (LogRot.forceRotateLogs files now).1.rotated ↔ 0 < e.2.size)
      ∧ (e.1 ∈ (LogRot.forceRotateLogs files now).1.skipped ↔ e.2.size = 0) := by
  intro e he
  refine ⟨?_, ?_, ?_, ?_⟩
  · have h := mem_map_filter_key Prod.fst
      (fun x => decide (LogRot.logRotationMaxSize ≤ x.2.size)) hnd he
    simpa [LogRot.rotateLogs] using h
  · have h := mem_map_filter_key Prod.fst
      (fun x => decide (x.2.size < LogRot.logRotationMaxSize)) hnd he
    simpa [LogRot.rotateLogs] using h
  · have h := mem_map_filter_key Prod.fst
      (fun x => decide (0 < x.2.size)) hnd he
    simpa [LogRot.forceRotateLogs] using h
  · have h := mem_map_filter_key Prod.fst
      (fun x => decide (x.2.size = 0)) hnd he
    simpa [LogRot.forceRotateLogs] using h

/-- Claim C7 witness: of two managed logs, the one at the threshold is
rotated by Rotate and the five-byte one is skipped; ForceRotate rotates
both since both have positive size. -/
theorem claim_C7_witness :
    ("daemon/dolt.log" ∈ (LogRot.rotateLogs LogRot.filesC7 1).1.rotated ↔
      LogRot.logRotationMaxSize ≤ LogRot.logRotationMaxSize)
    ∧ ("daemon/dolt.log" ∈ (LogRot.rotateLogs LogRot.filesC7 1).1.skipped ↔
      LogRot.logRotationMaxSize < LogRot.logRotationMaxSize)
    ∧ ("daemon/dolt.log" ∈ (LogRot.forceRotateLogs LogRot.filesC7 1).1.rotated ↔
      0 < LogRot.logRotationMaxSize)
    ∧ ("daemon/dolt.log" ∈ (LogRot.forceRotateLogs LogRot.filesC7 1).1.skipped ↔
      LogRot.logRotationMaxSize = 0) :=
  claim_C7_rotation_thresholds LogRot.filesC7 1 (by decide)
    ("daemon/dolt.log", { size := LogRot.logRotationMaxSize, backups := [] })
    (by decide)

/-- Every backup index of a well-formed backup set lies in the literal
index list 1..maxBackups, so by distinctness there are at most three. -/
theorem backups_length_le {bs : List (Nat × Nat)}
    (hnd : (bs.map Prod.fst).Nodup)
    (hb : ∀ kv ∈ bs, 1 ≤ kv.1 ∧ kv.1 ≤ LogRot.logRotationMaxBackups) :
    bs.length ≤ 3 := by
  have hsub : bs.map Prod.fst ⊆ [1, 2, 3] := by
    intro k hk
    obtain ⟨kv, hkv, rfl⟩ := List.mem_map.mp hk
    have := hb kv hkv
    have h3 : kv.1 ≤ 3 := by simpa [LogRot.logRotationMaxBackups] using this.2
    have h1 : 1 ≤ kv.1 := this.1
    interval_cases h : kv.1 <;> simp
  have := (hnd.subperm hsub).length_le
  simpa using this

/-- Shifting a well-formed backup set leaves at most two backups:
either some backup had index maxBackups and is deleted, or there were at
most two backups to begin with. -/
theorem shiftBackups_length_le {bs : List (Nat × Nat)}
    (hnd : (bs.map Prod.fst).Nodup)
    (hb : ∀ kv ∈ bs, 1 ≤ kv.1 ∧ kv.1 ≤ LogRot.logRotationMaxBackups) :
    (LogRot.shiftBackups bs).length ≤ 2 := by
  by_cases hex : ∃ kv ∈ bs, kv.1 = LogRot.logRotationMaxBackups
  · obtain ⟨kv, hkv, h3⟩ := hex
    have hlt := length_filterMap_lt_of_none
      (fun kv : Nat × Nat =>
        if kv.1 = LogRot.logRotationMaxBackups then none
        else if 1 ≤ kv.1 && kv.1 < LogRot.logRotationMaxBackups then some (kv.1 + 1, kv.2)
        else some kv) hkv (by simp [h3])
    have hlen := backups_length_le hnd hb
    have : (LogRot.shiftBackups bs).length < bs.length := hlt
    omega
  · push_neg at hex
    have hsub : bs.map Prod.fst ⊆ [1, 2] := by
      intro k hk
      obtain ⟨kv, hkv, rfl⟩ := List.mem_map.mp hk
      have h := hb kv hkv
      have hne := hex kv hkv
      have h3 : kv.1 ≤ 3 := by simpa [LogRot.logRotationMaxBackups] using h.2
      have hne3 : kv.1 ≠ 3 := by simpa [LogRot.logRotationMaxBackups] using hne
      have h1 : 1 ≤ kv.1 := h.1
      interval_cases h : kv.1 <;> simp_all
    have hlen : bs.length ≤ 2 := by
      have := (hnd.subperm hsub).length_le
      simpa using this
    calc (LogRot.shiftBackups bs).length ≤ bs.length :=
          List.length_filterMap_le _ _
      _ ≤ 2 := hlen

/-- Claim C8: after a copy-truncate rotation of a well-formed file the file
has size 0, the fresh backup .1.gz exists, and no backup index exceeds the
maximum backup count; in particular four successive forced rotations of a
refilled five-byte file leave exactly the backups .1.gz, .2.gz, .3.gz. -/
theorem claim_C8_rotation_effect :
    (∀ (f : LogRot.LogFile) (now : Nat),
      (f.backups.map Prod.fst).Nodup →
      (∀ kv ∈ f.backups, 1 ≤ kv.1 ∧ kv.1 ≤ LogRot.logRotationMaxBackups) →
      (LogRot.copyTruncateRotate f now).size = 0
      ∧ (1, now) ∈ (LogRot.copyTruncateRotate f now).backups
      ∧ ∀ kv ∈ (LogRot.copyTruncateRotate f now).backups,
          kv.1 ≤ LogRot.logRotationMaxBackups)
    ∧ LogRot.fourRotState.size = 0
    ∧ LogRot.fourRotState.backups.map Prod.fst = [1, 2, 3] := by
  refine ⟨?_, by decide, by decide⟩
  intro f now hnd hb
  have hshift := shiftBackups_length_le hnd hb
  have hclean : LogRot.cleanOldRotations ((1, now) :: LogRot.shiftBackups f.backups) =
      (1, now) :: LogRot.shiftBackups f.backups := by
    rw [LogRot.cleanOldRotations, if_pos]
    simp only [List.length_cons, LogRot.logRotationMaxBackups]
    omega
  refine ⟨rfl, ?_, ?_⟩
  · show (1, now) ∈ LogRot.cleanOldRotations ((1, now) :: LogRot.shiftBackups f.backups)
    rw [hclean]
    exact List.mem_cons_self _ _
  · intro kv hkv
    have hkv2 : kv ∈ (1, now) :: LogRot.shiftBackups f.backups := by
      rw [LogRot.copyTruncateRotate] at hkv
      simpa [hclean] using hkv
    rcases List.mem_cons.mp hkv2 with rfl | hmem
    · simp [LogRot.logRotationMaxBackups]
    · obtain ⟨kv0, hkv0, heq⟩ := List.mem_filterMap.mp hmem
      by_cases h3 : kv0.1 = LogRot.logRotationMaxBackups
      · rw [if_pos h3] at heq
        cases heq
      · rw [if_neg h3] at heq
        by_cases h12 : (1 ≤ kv0.1 && kv0.1 < LogRot.logRotationMaxBackups) = true
        · rw [if_pos h12] at heq
          have hkveq : kv = (kv0.1 + 1, kv0.2) := (Option.some_inj.mp heq).symm
          have h12b : kv0.1 < LogRot.logRotationMaxBackups := by
            have := h12
            simp only [Bool.and_eq_true, decide_eq_true_eq] at this
            exact this.2
          rw [hkveq]
          exact h12b
        · rw [if_neg h12] at heq
          have hkveq : kv = kv0 := (Option.some_inj.mp heq).symm
          rw [hkveq]
          exact (hb kv0 hkv0).2

/-- Claim C8 witness: rotating a ten-byte file with one backup .2.gz leaves
size 0, creates .1.gz, and keeps all indices within the maximum. -/
theorem claim_C8_witness :
    (LogRot.copyTruncateRotate LogRot.fileC8 9).size = 0
    ∧ (1, 9) ∈ (LogRot.copyTruncateRotate LogRot.fileC8 9).backups
    ∧ ∀ kv ∈ (LogRot.copyTruncateRotate LogRot.fileC8 9).backups,
        kv.1 ≤ LogRot.logRotationMaxBackups :=
  claim_C8_rotation_effect.1 LogRot.fileC8 9 (by decide) (by decide)

/-- Conditions satisfied by every selected drain candidate: it is a listed
message, and it passed either the protocol loop or the read-wisp loop. -/
theorem drain_selected_conditions {messages : List MailDrain.Message}
    {drainAll : Bool} {cutoff : Int} {c : MailDrain.Message × String}
    (h : c ∈ MailDrain.drainCandidates messages drainAll cutoff) :
    c.1 ∈ messages
    ∧ ((MailDrain.isDrainableMessage c.1.subject = true
          ∧ (drainAll = true ∨ c.1.timestamp ≤ cutoff))
      ∨ (MailDrain.isDrainableMessage c.1.subject = false ∧ c.1.wisp = true
          ∧ c.1.read = true ∧ (drainAll = true ∨ c.1.timestamp < cutoff))) := by
  rcases List.mem_append.mp h with hp | hw
  · obtain ⟨m, hmf, heq⟩ := List.mem_map.mp hp
    obtain ⟨hm, hcond⟩ := List.mem_filter.mp hmf
    cases heq
    simp only [Bool.and_eq_true, Bool.or_eq_true, Bool.not_eq_true',
      decide_eq_false_iff_not, not_lt, decide_eq_true_eq] at hcond
    exact ⟨hm, Or.inl hcond⟩
  · obtain ⟨m, hmf, heq⟩ := List.mem_map.mp hw
    obtain ⟨hm, hcond⟩ := List.mem_filter.mp hmf
    cases heq
    simp only [Bool.and_eq_true, Bool.or_eq_true, Bool.not_eq_true',
      decide_eq_true_eq] at hcond
    exact ⟨hm, Or.inr ⟨hcond.1.1.1, hcond.1.1.2, hcond.1.2, hcond.2⟩⟩

/-- A listed protocol message that is aged (or drained with --all) is
selected by the protocol loop. -/
theorem drain_proto_mem {messages : List MailDrain.Message} {drainAll : Bool}
    {cutoff : Int} {m : MailDrain.Message} (hm : m ∈ messages)
    (h1 : MailDrain.isDrainableMessage m.subject = true)
    (h2 : drainAll = true ∨ m.timestamp ≤ cutoff) :
    (m, if m.wisp then "wisp+protocol" else "protocol") ∈
      MailDrain.drainCandidates messages drainAll cutoff := by
  apply List.mem_append.mpr
  left
  apply List.mem_map.mpr
  refine ⟨m, List.mem_filter.mpr ⟨hm, ?_⟩, rfl⟩
  simp only [Bool.and_eq_true, Bool.or_eq_true, Bool.not_eq_true',
    decide_eq_false_iff_not, not_lt, decide_eq_true_eq]
  exact ⟨h1, h2⟩

/-- A listed non-protocol read wisp that is aged (or drained with --all) is
selected by the read-wisp loop. -/
theorem drain_wisp_mem {messages : List MailDrain.Message} {drainAll : Bool}
    {cutoff : Int} {m : MailDrain.Message} (hm : m ∈ messages)
    (h1 : MailDrain.isDrainableMessage m.subject = false)
    (h2 : m.wisp = true) (h3 : m.read = true)
    (h4 : drainAll = true ∨ m.timestamp < cutoff) :
    (m, "read-wisp") ∈ MailDrain.drainCandidates messages drainAll cutoff := by
  apply List.mem_append.mpr
  right
  apply List.mem_map.mpr
  refine ⟨m, List.mem_filter.mpr ⟨hm, ?_⟩, rfl⟩
  simp only [Bool.and_eq_true, Bool.or_eq_true, Bool.not_eq_true',
    decide_eq_true_eq]
  exact ⟨⟨⟨h1, h2⟩, h3⟩, h4⟩

/-- A cons list is never a prefix of a cons list with a different head. -/
theorem cons_not_isPrefixOf {a b : Char} (hne : a ≠ b) (l1 l2 : GoStr) :
    (a :: l1).isPrefixOf (b :: l2) = false := by
  simp [List.isPrefixOf, hne]

/-- A subject starting with HELP: or HANDOFF matches none of the drainable
protocol patterns. -/
theorem help_handoff_not_drainable (s : GoStr)
    (h : (str "HELP:").isPrefixOf s = true ∨ (str "HANDOFF").isPrefixOf s = true) :
    MailDrain.isDrainableMessage s = false := by
  obtain ⟨rest, rfl⟩ : ∃ r, s = 'H' :: r := by
    rcases h with h | h
    · cases s with
      | nil => exact absurd h (by decide)
      | cons c cs =>
        rw [show str "HELP:" = 'H' :: str "ELP:" from rfl] at h
        simp only [List.isPrefixOf, Bool.and_eq_true, beq_iff_eq] at h
        exact ⟨cs, by rw [h.1]⟩
    · cases s with
      | nil => exact absurd h (by decide)
      | cons c cs =>
        rw [show str "HANDOFF" = 'H' :: str "ANDOFF" from rfl] at h
        simp only [List.isPrefixOf, Bool.and_eq_true, beq_iff_eq] at h
        exact ⟨cs, by rw [h.1]⟩
  rw [MailDrain.isDrainableMessage, MailDrain.drainableSubjects]
  simp only [List.any_cons, List.any_nil, Bool.or_eq_false_iff]
  refine ⟨?_, ?_, ?_, ?_, ?_, ?_, ?_, trivial⟩
  · rw [show str "POLECAT_DONE" = 'P' :: str "OLECAT_DONE" from rfl]
    exact cons_not_isPrefixOf (by decide) _ _
  · rw [show str "POLECAT_STARTED" = 'P' :: str "OLECAT_STARTED" from rfl]
    exact cons_not_isPrefixOf (by decide) _ _
  · rw [show str "LIFECYCLE:" = 'L' :: str "IFECYCLE:" from rfl]
    exact cons_not_isPrefixOf (by decide) _ _
  · rw [show str "MERGED" = 'M' :: str "ERGED" from rfl]
    exact cons_not_isPrefixOf (by decide) _ _
  · rw [show str "MERGE_READY" = 'M' :: str "ERGE_READY" from rfl]
    exact cons_not_isPrefixOf (by decide) _ _
  · rw [show str "MERGE_FAILED" = 'M' :: str "ERGE_FAILED" from rfl]
    exact cons_not_isPrefixOf (by decide) _ _
  · rw [show str "SWARM_START" = 'S' :: str "WARM_START" from rfl]
    exact cons_not_isPrefixOf (by decide) _ _

/-- Claim C3 (amended): a listed message is selected as a drain candidate
iff its subject matches a drainable protocol pattern and the --all flag is
set or its age is at least the threshold (timestamp not after the cutoff),
or it is a read wisp and the --all flag is set or its age strictly exceeds
the threshold. -/
theorem claim_C3_drain_selection (messages : List MailDrain.Message)
    (drainAll : Bool) (cutoff : Int) :
    ∀ m ∈ messages,
      ((∃ r, (m, r) ∈ MailDrain.drainCandidates messages drainAll cutoff) ↔
        ((MailDrain.isDrainableMessage m.subject = true
            ∧ (drainAll = true ∨ m.timestamp ≤ cutoff))
          ∨ (m.wisp = true ∧ m.read = true
            ∧ (drainAll = true ∨ m.timestamp < cutoff)))) := by
  intro m hm
  constructor
  · rintro ⟨r, hr⟩
    have h := drain_selected_conditions hr
    rcases h.2 with hl | hrw
    · exact Or.inl hl
    · exact Or.inr ⟨hrw.2.1, hrw.2.2.1, hrw.2.2.2⟩
  · intro h
    rcases h with ⟨h1, h2⟩ | ⟨hw, hrd, hage⟩
    · exact ⟨_, drain_proto_mem hm h1 h2⟩
    · by_cases hd : MailDrain.isDrainableMessage m.subject = true
      · refine ⟨_, drain_proto_mem hm hd ?_⟩
        rcases hage with h | h
        · exact Or.inl h
        · exact Or.inr (le_of_lt h)
      · exact ⟨_, drain_wisp_mem hm (by simpa using hd) hw hrd hage⟩

/-- Claim C3 counterexample: with --all set, a fresh read wisp with a
non-protocol subject is selected by the code (reason read-wisp), although
under the claimed rule it is not a candidate, since it is not drainable and
its age does not exceed the threshold. -/
theorem claim_C3_counterexample :
    (MailDrain.cm3, "read-wisp") ∈ MailDrain.drainCandidates [MailDrain.cm3] true 0
    ∧ ¬ ((MailDrain.isDrainableMessage MailDrain.cm3.subject = true
          ∧ (true = true ∨ MailDrain.cm3.timestamp < 0))
        ∨ (MailDrain.cm3.wisp = true ∧ MailDrain.cm3.read = true
          ∧ MailDrain.cm3.timestamp < 0)) := by
  decide

/-- Claim C3 witness: an aged protocol message is a drain candidate. -/
theorem claim_C3_witness :
    ∃ r, (MailDrain.wm3, r) ∈ MailDrain.drainCandidates [MailDrain.wm3] false 0 :=
  (claim_C3_drain_selection [MailDrain.wm3] false 0 MailDrain.wm3 (by decide)).mpr
    (by decide)

/-- Claim C4 (amended): a message whose subject starts with HELP: or
HANDOFF survives a drain run unless it is a read wisp that is aged or
drained with --all; in particular every non-wisp HELP:/HANDOFF message is
preserved regardless of age, read flag and the --all flag. -/
theorem claim_C4_help_preserved (messages : List MailDrain.Message)
    (drainAll dryRun : Bool) (cutoff : Int)
    (hnd : (messages.map MailDrain.Message.id).Nodup) :
    ∀ m ∈ messages,
      ((str "HELP:").isPrefixOf m.subject = true
        ∨ (str "HANDOFF").isPrefixOf m.subject = true) →
      ¬(m.wisp = true ∧ m.read = true ∧ (drainAll = true ∨ m.timestamp < cutoff)) →
      m ∈ MailDrain.runMailDrain messages drainAll dryRun cutoff := by
  intro m hm hsubj hexc
  rw [MailDrain.runMailDrain]
  by_cases hdry : dryRun = true
  · simpa [hdry] using hm
  · have hdry2 : dryRun = false := by simpa using hdry
    simp only [hdry2, Bool.false_eq_true, if_false]
    apply List.mem_filter.mpr
    refine ⟨hm, ?_⟩
    rw [Bool.not_eq_true', List.any_eq_false]
    intro c hc
    simp only [beq_iff_eq]
    intro hid
    have hcond := drain_selected_conditions hc
    have hceq : c.1 = m := nodup_key_inj MailDrain.Message.id hnd hcond.1 hm hid
    have hnotdrain := help_handoff_not_drainable m.subject hsubj
    rcases hcond.2 with hl | hrw
    · rw [hceq, hnotdrain] at hl
      exact absurd hl.1 (by simp)
    · rw [hceq] at hrw
      exact hexc ⟨hrw.2.1, hrw.2.2.1, hrw.2.2.2⟩

/-- Claim C4 counterexample: an aged, read HELP: message flagged as a wisp
is removed from the mailbox by a drain run with default flags. -/
theorem claim_C4_counterexample :
    (str "HELP:").isPrefixOf MailDrain.hm4.subject = true
    ∧ MailDrain.hm4 ∈ [MailDrain.hm4]
    ∧ MailDrain.hm4 ∉ MailDrain.runMailDrain [MailDrain.hm4] false false 10 := by
  decide

/-- Claim C4 witness: an aged unread non-wisp HELP: message survives the
drain run. -/
theorem claim_C4_witness :
    MailDrain.hm4b ∈ MailDrain.runMailDrain [MailDrain.hm4b] false false 10 :=
  claim_C4_help_preserved [MailDrain.hm4b] false false 10 (by decide)
    MailDrain.hm4b (by decide) (Or.inl (by decide)) (by decide)

/-- Every wisp whose ID is selected by a purge batch satisfies the parent
check in the state the batch selected from. -/
theorem parentCheck_of_mem_wispBatchIds {s : Reaper.DBState}
    (hnd : (s.wisps.map Reaper.Wisp.id).Nodup) {w : Reaper.Wisp}
    (hw : w ∈ s.wisps) {dc : Int} (hid : w.id ∈ Reaper.wispBatchIds s dc) :
    Reaper.parentCheck s w = true := by
  obtain ⟨w2, hw2, heq⟩ := List.mem_map.mp hid
  have hw2f : w2 ∈ s.wisps.filter (Reaper.purgeEligible s dc) :=
    List.mem_of_mem_take hw2
  obtain ⟨hw2m, hpe⟩ := List.mem_filter.mp hw2f
  have hw2w : w2 = w := nodup_key_inj Reaper.Wisp.id hnd hw2m hw heq
  subst hw2w
  simp only [Reaper.purgeEligible, Bool.and_eq_true] at hpe
  exact hpe.2

/-- Claim C1: every wisp row modified by the reap UPDATE satisfied the
parent check against the state the UPDATE read, every wisp selected for
deletion by a purge batch satisfied it in the state the batch read, and a
wisp failing the parent check is neither closed by reap nor selected by a
purge batch. -/
theorem claim_C1_parent_closure (cutoff deleteCutoff now : Int) :
    (∀ db : Reaper.DBState, ∀ w ∈ db.wisps,
        Reaper.reapUpdateRow db cutoff now w ≠ w → Reaper.parentCheck db w = true)
    ∧ (∀ s : Reaper.DBState, (s.wisps.map Reaper.Wisp.id).Nodup →
        ∀ w ∈ s.wisps, w.id ∈ Reaper.wispBatchIds s deleteCutoff →
          Reaper.parentCheck s w = true)
    ∧ (∀ db : Reaper.DBState, (db.wisps.map Reaper.Wisp.id).Nodup →
        ∀ w ∈ db.wisps, Reaper.parentCheck db w = false →
          Reaper.reapUpdateRow db cutoff now w = w
          ∧ w.id ∉ Reaper.wispBatchIds db deleteCutoff) := by
  refine ⟨?_, ?_, ?_⟩
  · intro db w hw hne
    by_cases h : Reaper.reapEligible db cutoff w = true
    · simp only [Reaper.reapEligible, Bool.and_eq_true] at h
      exact h.2
    · exact absurd (by simp [Reaper.reapUpdateRow, h]) hne
  · intro s hnd w hw hid
    exact parentCheck_of_mem_wispBatchIds hnd hw hid
  · intro db hnd w hw hpc
    refine ⟨by simp [Reaper.reapUpdateRow, Reaper.reapEligible, hpc], ?_⟩
    intro hid
    rw [parentCheck_of_mem_wispBatchIds hnd hw hid] at hpc
    cases hpc

/-- Claim C1 witness: in a database with a stale open orphan and a stale
open wisp whose parent is open, the orphan passes the parent check and is
reaped, while the parent-gated wisp is left unmodified and unselected. -/
theorem claim_C1_witness :
    Reaper.parentCheck Reaper.dbC1 Reaper.wOrphanC1 = true
    ∧ (Reaper.reapUpdateRow Reaper.dbC1 (-1000) 0 Reaper.wChildC1 = Reaper.wChildC1
      ∧ Reaper.wChildC1.id ∉ Reaper.wispBatchIds Reaper.dbC1 0) :=
  ⟨(claim_C1_parent_closure (-1000) 0 0).1 Reaper.dbC1 Reaper.wOrphanC1
      (by decide) (by decide),
   (claim_C1_parent_closure (-1000) 0 0).2.2 Reaper.dbC1 (by decide)
      Reaper.wChildC1 (by decide) (by decide)⟩

/-- Claim C5 counterexample: in the wisp_reaper.go revision the mail purge
cutoff at instant 0 is not now minus 7 days, since its defaultMailDeleteAge
is 30 days. -/
theorem claim_C5_counterexample :
    ReaperLegacy.mailCutoff 0 ≠ 0 - 7 * 24 * Reaper.hour := by decide

/-- Claim C5 (amended): the two source revisions disagree on the
mail-delete-age default: part_003 uses 7 days, wisp_reaper.go uses 30
days; the mail purge cutoff is now minus that constant, and under part_003
a gt:message row is eligible for purge only if closed and closed_at more
than 7 days in the past. -/
theorem claim_C5_mail_delete_age (now : Int) :
    Reaper.mailPurgeCutoff now = now - 7 * 24 * Reaper.hour
    ∧ ReaperLegacy.mailCutoff now = now - 30 * 24 * Reaper.hour
    ∧ (∀ db : Reaper.DBState, ∀ i ∈ db.issues,
        Reaper.mailEligible db (Reaper.mailPurgeCutoff now) i = true →
          i.status = "closed"
          ∧ Reaper.closedBefore i.closed_at (now - 7 * 24 * Reaper.hour) = true) := by
  refine ⟨rfl, rfl, ?_⟩
  intro db i hi he
  simp only [Reaper.mailEligible, Bool.and_eq_true, beq_iff_eq] at he
  exact ⟨he.1.1, he.1.2⟩

/-- Claim C5 witness: a mail row closed more than 7 days before instant 0
is eligible, closed, and its closed_at precedes the 7 day cutoff. -/
theorem claim_C5_witness :
    Reaper.mailC5.status = "closed"
    ∧ Reaper.closedBefore Reaper.mailC5.closed_at (0 - 7 * 24 * Reaper.hour) = true :=
  (claim_C5_mail_delete_age 0).2.2 Reaper.dbC5 Reaper.mailC5 (by decide) (by decide)

/-- Claim C6: every issue row modified by the auto-close UPDATE had
priority above 1, was not an epic, was stale, had open-family status, and
had no open or in-progress issue on either side of a dependency edge. -/
theorem claim_C6_auto_close_conditions (db : Reaper.DBState) (staleCutoff now : Int) :
    ∀ i ∈ db.issues, Reaper.autoCloseUpdateRow db staleCutoff now i ≠ i →
      1 < i.priority ∧ i.issue_type ≠ "epic" ∧ i.updated_at < staleCutoff
      ∧ (i.status = "open" ∨ i.status = "in_progress")
      ∧ ¬ (∃ j ∈ db.issues, (j.status = "open" ∨ j.status = "in_progress")
            ∧ ∃ d ∈ db.dependencies,
                ((d.issue_id = j.id ∧ d.depends_on_id = i.id)
                  ∨ (d.issue_id = i.id ∧ d.depends_on_id = j.id))) := by
  intro i hi hne
  have helig : Reaper.autoCloseEligible db staleCutoff i = true := by
    by_contra h
    exact hne (by simp [Reaper.autoCloseUpdateRow, h])
  simp only [Reaper.autoCloseEligible, Bool.and_eq_true, decide_eq_true_eq,
    Bool.not_eq_true', Reaper.openIssueStatus, Bool.or_eq_true, beq_iff_eq,
    bne_iff_ne] at helig
  obtain ⟨⟨⟨⟨⟨hst, hupd⟩, hpr⟩, hty⟩, hdep⟩, hblk⟩ := helig
  refine ⟨hpr, hty, hupd, hst, ?_⟩
  rintro ⟨j, hj, hjopen, d, hd, hcase⟩
  have hjopen2 : Reaper.openIssueStatus j.status = true := by
    rcases hjopen with h | h <;> simp [Reaper.openIssueStatus, h]
  rcases hcase with ⟨hdj, hdi⟩ | ⟨hdi, hdj⟩
  · have : Reaper.blockedByOpen db i = true := by
      simp only [Reaper.blockedByOpen, List.any_eq_true, Bool.and_eq_true, beq_iff_eq]
      exact ⟨d, hd, hdi, j, hj, hdj.symm, hjopen2⟩
    rw [this] at hblk
    cases hblk
  · have : Reaper.dependsOnOpen db i = true := by
      simp only [Reaper.dependsOnOpen, List.any_eq_true, Bool.and_eq_true, beq_iff_eq]
      exact ⟨d, hd, hdi, j, hj, hdj.symm, hjopen2⟩
    rw [this] at hdep
    cases hdep

/-- Claim C6 witness: a stale open priority-2 task with no dependencies is
auto-closed, and the theorem certifies every exclusion condition for it. -/
theorem claim_C6_witness :
    1 < Reaper.issueC6.priority ∧ Reaper.issueC6.issue_type ≠ "epic"
    ∧ Reaper.issueC6.updated_at < -1000
    ∧ (Reaper.issueC6.status = "open" ∨ Reaper.issueC6.status = "in_progress")
    ∧ ¬ (∃ j ∈ Reaper.dbC6.issues,
          (j.status = "open" ∨ j.status = "in_progress")
          ∧ ∃ d ∈ Reaper.dbC6.dependencies,
              ((d.issue_id = j.id ∧ d.depends_on_id = Reaper.issueC6.id)
                ∨ (d.issue_id = Reaper.issueC6.id ∧ d.depends_on_id = j.id))) :=
  claim_C6_auto_close_conditions Reaper.dbC6 (-1000) 0 Reaper.issueC6
    (by decide) (by decide)

/-- Claim C2: the dry-run flag does suppress the reap UPDATE, the wisp
purge DELETE and the auto-close UPDATE, but the mail purge has no dry-run
parameter at all: a dry-run cycle over a database holding one old closed
gt:message row still deletes that row, contradicting the announced
"no changes will be made". -/
theorem claim_C2_dry_run_mail_purge_bug :
    Reaper.cfgC2.dryRun = true
    ∧ Reaper.dbC2.issues = [Reaper.mailC2]
    ∧ Reaper.runReaperCycle Reaper.cfgC2 Reaper.gC2 0 = [("hq", Reaper.emptyDB)]
    ∧ (∀ (db : Reaper.DBState) (cutoff dc sc now2 : Int),
        (Reaper.reapWispsInDB db cutoff now2 true).2.2 = db
        ∧ (Reaper.purgeClosedWispsInDB db dc true).2 = db
        ∧ (Reaper.autoCloseStaleIssuesInDB db sc now2 true).2 = db) := by
  refine ⟨rfl, rfl, by decide, ?_⟩
  intro db cutoff dc sc now2
  refine ⟨rfl, ?_, ?_⟩
  · by_cases h : (db.wisps.filter (Reaper.purgeEligible db dc)).length = 0 <;>
      simp [Reaper.purgeClosedWispsInDB, h]
  · by_cases h : (db.issues.filter (Reaper.autoCloseEligible db sc)).length = 0 <;>
      simp [Reaper.autoCloseStaleIssuesInDB, h]

/-- An entry whose database name is not in the processed list is untouched
by a cycle step. -/
theorem mem_runStep_of_not_mem {f : Reaper.DBState → Reaper.DBState}
    {e : String × Reaper.DBState} {dbs : List String} :
    ∀ {g : Reaper.GlobalState}, e ∈ g → e.1 ∉ dbs → e ∈ Reaper.runStep g dbs f := by
  induction dbs with
  | nil => intro g he _; exact he
  | cons x xs ih =>
    intro g he hn
    have hne : e.1 ≠ x := fun hx => hn (hx ▸ List.mem_cons_self _ _)
    have hx : e ∈ (if Reaper.validDBName x then Reaper.updateDB g x f else g) := by
      by_cases hv : Reaper.validDBName x
      · rw [if_pos hv]
        exact List.mem_map.mpr ⟨e, he, by simp [hne]⟩
      · rwa [if_neg hv]
    exact ih hx (fun hmem => hn (List.mem_cons_of_mem _ hmem))

/-- updateDB preserves the database names and their order. -/
theorem map_fst_updateDB (g : Reaper.GlobalState) (n : String)
    (f : Reaper.DBState → Reaper.DBState) :
    (Reaper.updateDB g n f).map Prod.fst = g.map Prod.fst := by
  induction g with
  | nil => rfl
  | cons x xs ih =>
    show ((if x.1 == n then (x.1, f x.2) else x) :: Reaper.updateDB xs n f).map Prod.fst
        = x.1 :: xs.map Prod.fst
    rw [List.map_cons, ih]
    by_cases h : x.1 == n
    · rw [if_pos h]
    · rw [if_neg h]

/-- A cycle step preserves the database names and their order. -/
theorem map_fst_runStep (dbs : List String) (f : Reaper.DBState → Reaper.DBState) :
    ∀ g : Reaper.GlobalState, (Reaper.runStep g dbs f).map Prod.fst = g.map Prod.fst := by
  induction dbs with
  | nil => intro g; rfl
  | cons x xs ih =>
    intro g
    show (Reaper.runStep (if Reaper.validDBName x then Reaper.updateDB g x f else g)
        xs f).map Prod.fst = _
    rw [ih]
    by_cases h : Reaper.validDBName x <;> simp [h, map_fst_updateDB]

/-- Claim C10: with no configured databases, the cycle falls back to
exactly hq, beads, gastown in that order; the run neither adds nor removes
databases, and any database outside that list is left untouched. -/
theorem claim_C10_database_fallback (c : Reaper.WispReaperConfig)
    (g : Reaper.GlobalState) (now : Int) (h : c.databases = []) :
    Reaper.cycleDatabases c = ["hq", "beads", "gastown"]
    ∧ (Reaper.runReaperCycle c g now).map Prod.fst = g.map Prod.fst
    ∧ ∀ e ∈ g, e.1 ∉ (["hq", "beads", "gastown"] : List String) →
        e ∈ Reaper.runReaperCycle c g now := by
  have hdbs : Reaper.cycleDatabases c = ["hq", "beads", "gastown"] := by
    simp [Reaper.cycleDatabases, h, Reaper.discoverDoltDatabases]
  refine ⟨hdbs, ?_, ?_⟩
  · rw [Reaper.runReaperCycle]
    split
    · rfl
    · rw [hdbs]
      simp only [List.isEmpty_cons, Bool.false_eq_true, if_false]
      rw [map_fst_runStep, map_fst_runStep, map_fst_runStep, map_fst_runStep]
  · intro e he hne
    rw [Reaper.runReaperCycle]
    split
    · exact he
    · rw [hdbs]
      simp only [List.isEmpty_cons, Bool.false_eq_true, if_false]
      exact mem_runStep_of_not_mem
        (mem_runStep_of_not_mem
          (mem_runStep_of_not_mem (mem_runStep_of_not_mem he hne) hne) hne) hne

/-- Claim C10 witness: with an empty database list the fallback is the
three production databases, and a foreign database entry survives the run
unchanged. -/
theorem claim_C10_witness :
    Reaper.cycleDatabases Reaper.cfgC10 = ["hq", "beads", "gastown"]
    ∧ ("scratch", Reaper.otherDBC10) ∈
        Reaper.runReaperCycle Reaper.cfgC10 Reaper.gC10 0 :=
  ⟨(claim_C10_database_fallback Reaper.cfgC10 Reaper.gC10 0 (by decide)).1,
   (claim_C10_database_fallback Reaper.cfgC10 Reaper.gC10 0 (by decide)).2.2
     ("scratch", Reaper.otherDBC10) (by decide) (by decide)⟩

end Gastown
